import Mathlib

/-!
# Verification of the polyfit least-squares polynomial fitting library

Shallow embedding of the `Polyfit` class (polynomial fitment solver: a
constructor validating the two sample sequences, Gauss-Jordan elimination on
the normal-equations matrix, coefficient extraction, correlation coefficient,
degree search, and expression rendering), together with theorems checking the
specification's statements against it.

Modelling conventions:
* JavaScript numbers are modelled as exact rationals (`ℚ`); the library's
  algorithms are pure rational arithmetic apart from `Math.sqrt`, which is
  eliminated algebraically where it occurs (see `Polyfit.correlationCoefficient`).
* A JS value passed to the constructor is one of: a plain `Array`, a
  `Float32Array`, a `Float64Array` (each carrying a list of numbers), or some
  non-sequence value (`JSValue.other`).
* `throw new Error(...)` is modelled with `Except PolyfitError`; the spec calls
  these errors `ConfigurationError`.
* In-place matrix mutation is modelled by threading the matrix value through
  the row operations; `while` loops become recursive functions with the same
  guard, and accumulation loops over the samples become sums over
  `List.range n` of the very same summands.
-/

/-- A matrix, as the source stores it: a row-major list of rows of numbers. -/
abbrev Mat := List (List ℚ)

/-- Reading `matrix[r][c]`; out-of-range reads never occur on the paths the
theorems exercise, and default to `0`. -/
def entry (M : Mat) (r c : ℕ) : ℚ := (M.getD r []).getD c 0

/-- Writing `matrix[r][c] = v`. -/
def setEntry (M : Mat) (r c : ℕ) (v : ℚ) : Mat :=
  M.set r ((M.getD r []).set c v)

/-- The three sequence representations the constructor accepts
(`Array`, `Float32Array`, `Float64Array`). -/
inductive SeqKind
  | plainArray
  | float32
  | float64
deriving DecidableEq

/-- A JS value handed to the constructor: one of the three numeric sequence
kinds, or some other (non-sequence) value. -/
inductive JSValue
  | arr (l : List ℚ)
  | f32 (l : List ℚ)
  | f64 (l : List ℚ)
  | other
deriving DecidableEq

/-- Is the value one of the three accepted sequence kinds? -/
def JSValue.isSeqB : JSValue → Bool
  | .other => false
  | _ => true

/-- Do the two values have the same sequence representation
(both plain arrays, both Float32Array, or both Float64Array)? -/
def sameRepB : JSValue → JSValue → Bool
  | .arr _, .arr _ => true
  | .f32 _, .f32 _ => true
  | .f64 _, .f64 _ => true
  | _, _ => false

/-- Length of a sequence value (`0` for a non-sequence). -/
def JSValue.seqLen : JSValue → ℕ
  | .arr l => l.length
  | .f32 l => l.length
  | .f64 l => l.length
  | .other => 0

/-- Errors observable from the library's calls. The errors the library
throws itself (`throw new Error(...)`) are what the spec's taxonomy calls
`ConfigurationError`; a `RangeError` is thrown by the JS runtime out of the
typed-array row-view construction inside `computeCoefficients` when a
non-integral degree misaligns the views (see `Polyfit.floatRowInit`). -/
inductive PolyfitError
  | configurationError (msg : String)
  | rangeError (msg : String)
deriving DecidableEq

/-- A constructed fit session: the validated sample sequences and the
representation they share (the source remembers the latter in
`this.FloatXArray`). -/
structure Polyfit where
  kind : SeqKind
  x : List ℚ
  y : List ℚ
deriving DecidableEq

/-- The `Polyfit` constructor: requires `x` and `y` to be sequences of the
same representation (else it throws `x and y must be arrays`) and of the same
length (else it throws `x and y must have the same length`). -/
def mkPolyfit (xv yv : JSValue) : Except PolyfitError Polyfit :=
  match xv, yv with
  | .arr xs, .arr ys =>
    if xs.length ≠ ys.length then
      .error (.configurationError "x and y must have the same length")
    else .ok ⟨.plainArray, xs, ys⟩
  | .f32 xs, .f32 ys =>
    if xs.length ≠ ys.length then
      .error (.configurationError "x and y must have the same length")
    else .ok ⟨.float32, xs, ys⟩
  | .f64 xs, .f64 ys =>
    if xs.length ≠ ys.length then
      .error (.configurationError "x and y must have the same length")
    else .ok ⟨.float64, xs, ys⟩
  | _, _ => .error (.configurationError "x and y must be arrays")

/-- Did the call return normally? -/
def isOkB : Except PolyfitError α → Bool
  | .ok _ => true
  | .error _ => false

/-- Did the call throw a `ConfigurationError`? -/
def isConfigErrB : Except PolyfitError α → Bool
  | .error (.configurationError _) => true
  | .error (.rangeError _) => false
  | .ok _ => false

/-- Width in bytes of one element of each typed representation
(`BYTES_PER_ELEMENT`: 4 for `Float32Array`, 8 for `Float64Array`); `none`
for plain arrays, where the source leaves `this.FloatXArray` unset. -/
def SeqKind.bytesPerElement : SeqKind → Option ℕ
  | .plainArray => none
  | .float32 => some 4
  | .float64 => some 8

namespace Polyfit

/-- Model of `Polyfit.gaussJordanDivide`: divides `matrix[row][i]` by the pivot
`matrix[row][col]` for every column `i` from `col + 1` up to `numCols - 1`
(the pivot cell itself is only read during the loop), then sets the pivot
cell to exactly `1`. -/
def gaussJordanDivide (matrix : Mat) (row col numCols : ℕ) : Mat :=
  let looped := (List.range' (col + 1) (numCols - (col + 1))).foldl
    (fun m i => setEntry m row i (entry m row i / entry m row col)) matrix
  setEntry looped row col 1

/-- Model of `Polyfit.gaussJordanEliminate`: for every row `i < numRows` other than
`row` whose entry in column `col` is nonzero, subtracts
`matrix[i][col] * matrix[row][j]` from `matrix[i][j]` for each column `j`
from `col + 1` up to `numCols - 1` (the factor `matrix[i][col]` and the pivot
row are only read during the inner loop), then zeroes `matrix[i][col]`. -/
def gaussJordanEliminate (matrix : Mat) (row col numRows numCols : ℕ) : Mat :=
  (List.range numRows).foldl
    (fun m i =>
      if i ≠ row ∧ entry m i col ≠ 0 then
        let inner := (List.range' (col + 1) (numCols - (col + 1))).foldl
          (fun m2 j => setEntry m2 i j (entry m2 i j - entry m2 i col * entry m2 row j)) m
        setEntry inner i col 0
      else m)
    matrix

/-- The inner scan of `gaussJordanEchelonize`:
`while (k < rows && matrix[k][j] === 0) k++`. The recursion is driven by the
quantity `rows - k`, passed as an explicit argument so that the definition is
structural: a zero budget is exactly the loop's `k < rows` guard failing. -/
def pivotScan (matrix : Mat) (j : ℕ) : ℕ → ℕ → ℕ
  | k, 0 => k
  | k, fuel + 1 => if entry matrix k j = 0 then pivotScan matrix j (k + 1) fuel else k

/-- Swapping rows `i` and `k` of the matrix (the source swaps the two row
references through a temporary). -/
def swapRows (matrix : Mat) (i k : ℕ) : Mat :=
  (matrix.set i (matrix.getD k [])).set k (matrix.getD i [])

/-- The `while (i < rows && j < cols)` loop of `gaussJordanEchelonize`,
with cursor `(i, j)`: scan column `j` from row `i` down for a nonzero entry;
if found at `k`, swap when `k ≠ i`, divide the cursor row when the pivot is
not `1`, eliminate the column from the other rows, and advance `i`; in every
case advance `j`.
The recursion is driven by `cols - j` (the column index advances on every
iteration), passed as an explicit argument so that the definition is
structural: a zero budget is exactly the loop's `j < cols` guard failing. -/
def echelonGo (rows cols : ℕ) (matrix : Mat) (i j : ℕ) : ℕ → Mat
  | 0 => matrix
  | fuel + 1 =>
    if i < rows then
      let k := pivotScan matrix j i (rows - i)
      if k < rows then
        let m1 := if k ≠ i then swapRows matrix i k else matrix
        let m2 := if entry m1 i j ≠ 1 then gaussJordanDivide m1 i j cols else m1
        let m3 := gaussJordanEliminate m2 i j rows cols
        echelonGo rows cols m3 (i + 1) (j + 1) fuel
      else
        echelonGo rows cols matrix i (j + 1) fuel
    else matrix

/-- Model of `Polyfit.gaussJordanEchelonize`: reduces the matrix in place, with
`rows = matrix.length` and `cols = matrix[0].length` (the loop starts at
`j = 0`, so its column budget is `cols`). -/
def gaussJordanEchelonize (matrix : Mat) : Mat :=
  echelonGo matrix.length (matrix.headD []).length matrix 0 0 (matrix.headD []).length

/-- Model of `Polyfit.regress`: evaluates `Σ terms[i] * x^i`. -/
def regress (x : ℚ) (terms : List ℚ) : ℚ :=
  ((List.range terms.length).map fun i => terms.getD i 0 * x ^ i).sum

/-- The accumulator `sx` of `correlationCoefficient`: the sum of the predicted
values `regress(x[i], terms)` over the `n = x.length` samples. -/
def corrSx (s : Polyfit) (terms : List ℚ) : ℚ :=
  ((List.range s.x.length).map fun i => regress (s.x.getD i 0) terms).sum

/-- The accumulator `sy` of `correlationCoefficient`: the sum of `y[i]`. -/
def corrSy (s : Polyfit) : ℚ :=
  ((List.range s.x.length).map fun i => s.y.getD i 0).sum

/-- The accumulator `sxy` of `correlationCoefficient`. -/
def corrSxy (s : Polyfit) (terms : List ℚ) : ℚ :=
  ((List.range s.x.length).map fun i => regress (s.x.getD i 0) terms * s.y.getD i 0).sum

/-- The accumulator `sx2` of `correlationCoefficient`. -/
def corrSx2 (s : Polyfit) (terms : List ℚ) : ℚ :=
  ((List.range s.x.length).map fun i =>
    regress (s.x.getD i 0) terms * regress (s.x.getD i 0) terms).sum

/-- The accumulator `sy2` of `correlationCoefficient`. -/
def corrSy2 (s : Polyfit) : ℚ :=
  ((List.range s.x.length).map fun i => s.y.getD i 0 * s.y.getD i 0).sum

/-- The radicand of the denominator of `correlationCoefficient`:
`(sx2 - sx*sx/n) * (sy2 - sy*sy/n)`, whose square root the source takes as
`div`. -/
def corrDenomSq (s : Polyfit) (terms : List ℚ) : ℚ :=
  (corrSx2 s terms - corrSx s terms * corrSx s terms / s.x.length) *
    (corrSy2 s - corrSy s * corrSy s / s.x.length)

/-- Model of `Polyfit.correlationCoefficient`: the squared Pearson correlation between
the predicted and sampled y values, and `0` when the denominator is `0`.
The source computes `div = Math.sqrt(corrDenomSq)`, keeps `r = 0` when
`div === 0`, and otherwise squares `(sxy - sx*sy/n) / div`; in exact
arithmetic `corrDenomSq ≥ 0` (it is a product of two scaled variances), so
`div = 0` iff `corrDenomSq = 0` and `((sxy - sx*sy/n) / √corrDenomSq)^2 =
(sxy - sx*sy/n)^2 / corrDenomSq`, which is how the square root is eliminated
here. -/
def correlationCoefficient (s : Polyfit) (terms : List ℚ) : ℚ :=
  if corrDenomSq s terms = 0 then 0
  else (corrSxy s terms - corrSx s terms * corrSy s / s.x.length) ^ 2 / corrDenomSq s terms

/-- Model of `Polyfit.standardError` squared: `0` when `n ≤ 2`, else
`sqrt(Σ (regress(x[i]) - y[i])^2 / (n - 2))`. Only the squared value is
needed here (the square root is not rational); no claim touches it. -/
def standardErrorSq (s : Polyfit) (terms : List ℚ) : ℚ :=
  if 2 < s.x.length then
    ((List.range s.x.length).map fun i =>
      (regress (s.x.getD i 0) terms - s.y.getD i 0) ^ 2).sum / (s.x.length - 2 : ℚ)
  else 0

/-- The precalculation array `mpc` of `computeCoefficients` after the sample
loop: `mpc[0] = n` (set directly), and `mpc[r]` accumulates `Σ x[i]^r` for
`r ≥ 1`; indices `0 ≤ r < rs = 2*(p0+1+1) - 1` are the ones ever read. -/
def mpcAt (x : List ℚ) (r : ℕ) : ℚ :=
  if r = 0 then (x.length : ℚ)
  else ((List.range x.length).map fun i => x.getD i 0 ^ r).sum

/-- The right-hand column of the augmented matrix after the sample loop:
row 0 accumulates `Σ y[i]` and row `r ≥ 1` accumulates `Σ x[i]^r * y[i]`
(for `r = 0` the two coincide since `x^0 = 1`, so one formula serves). -/
def rhsAt (x y : List ℚ) (r : ℕ) : ℚ :=
  ((List.range x.length).map fun i => x.getD i 0 ^ r * y.getD i 0).sum

/-- Model of `Polyfit.computeCoefficients`: with `p = p0 + 1` (the source increments
its argument first), builds the `p × (p+1)` augmented matrix whose square
block holds `mpc[r+c]` and whose last column holds the `rhs` sums, reduces it
with `gaussJordanEchelonize`, and reads the coefficients off the last column
(`terms[i] = m[i][p]`). -/
def computeCoefficients (s : Polyfit) (p0 : ℕ) : List ℚ :=
  let p := p0 + 1
  let m : Mat := (List.range p).map fun r =>
    ((List.range p).map fun c => mpcAt s.x (r + c)) ++ [rhsAt s.x s.y r]
  (gaussJordanEchelonize m).map fun row => row.getD p 0

/-- The `for (let i = 1; i <= maxDegree; i++)` loop of `computeBestFit`:
computes the degree-`i` coefficients, returns them when their correlation
strictly exceeds the threshold, else moves to `i + 1`; past `maxDegree` it
returns `[]`. The recursion is driven by the number of remaining iterations
`maxDegree - i + 1` (clamped at zero), passed as an explicit argument so
that the definition is structural: a zero budget is exactly the loop's
`i <= maxDegree` guard failing. -/
def bestFitLoop (s : Polyfit) (correlation : ℚ) : ℕ → ℕ → List ℚ
  | _, 0 => []
  | i, fuel + 1 =>
    let terms := computeCoefficients s i
    if correlation < correlationCoefficient s terms then terms
    else bestFitLoop s correlation (i + 1) fuel

/-- Model of `Polyfit.computeBestFit`: defaults the threshold to `0.9` when the
optional argument is omitted and runs the degree loop from `i = 1`; starting
there, the `i <= maxDegree` loop makes `max maxDegree 0 = maxDegree.toNat`
passes. -/
def computeBestFit (s : Polyfit) (maxDegree : ℤ) (correlation : Option ℚ) : List ℚ :=
  bestFitLoop s (correlation.getD (9 / 10)) 1 maxDegree.toNat

/-- View of `computeBestFit` through the error model: its body contains no
`throw`, so every call is a normal return of the loop's value. -/
def computeBestFitE (s : Polyfit) (maxDegree : ℤ) (correlation : Option ℚ) :
    Except PolyfitError (List ℚ) :=
  .ok (computeBestFit s maxDegree correlation)

end Polyfit

/-- A JS number as the degree checks observe it: `NaN` or an exact value. -/
inductive JSNum
  | nan
  | num (q : ℚ)
deriving DecidableEq

/-- The check `isNaN(degree)`. -/
def JSNum.isNaNb : JSNum → Bool
  | .nan => true
  | .num _ => false

/-- The check `degree < 0` (false for `NaN`, as in JS). -/
def JSNum.isNegB : JSNum → Bool
  | .nan => false
  | .num q => decide (q < 0)

/-- The numeric value of a degree that passed the NaN check (`0` for `NaN`;
the guarded paths below never consult that arm, since the guard rejects
`NaN` first). -/
def JSNum.toRat : JSNum → ℚ
  | .nan => 0
  | .num q => q

namespace Polyfit

/-- One pass of the row-view loop of the typed-array matrix initialization
in `computeCoefficients` — `for (i = 0; i < p; i++)` creating
`new FloatXArray(buffer, i * bytesPerRow, p + 1)` — with the JS semantics
of the view constructor: `ToIndex` truncates the (here non-negative) byte
offset and length to integers, the offset must be a multiple of the element
width `bpe`, and the view must fit inside the buffer; otherwise the
constructor throws a `RangeError`. The loop guard `i < p` itself ends the
iteration; the explicit budget argument (always at least the pass count at
the call site) only bounds the recursion, and an exhausted budget returns
the same value as a failed guard. -/
def rowInitLoop (bpe : ℕ) (p bytesPerRow : ℚ) (bufLen rowLen : ℕ) :
    ℕ → ℕ → Except PolyfitError Unit
  | _, 0 => .ok ()
  | i, fuel + 1 =>
    if (i : ℚ) < p then
      if (⌊(i : ℚ) * bytesPerRow⌋).toNat % bpe ≠ 0 then
        .error (.rangeError "start offset of the row view is not a multiple of the element size")
      else if bufLen < (⌊(i : ℚ) * bytesPerRow⌋).toNat + rowLen * bpe then
        .error (.rangeError "invalid typed array length")
      else rowInitLoop bpe p bytesPerRow bufLen rowLen (i + 1) fuel
    else .ok ()

/-- The `if (this.FloatXArray)` matrix-initialization branch of
`computeCoefficients` for element width `bpe`, at the (already incremented,
possibly fractional) degree `p`: `bytesPerRow = (p + 1) * BYTES_PER_ELEMENT`,
`buffer = new ArrayBuffer(p * bytesPerRow)` (`ToIndex` truncates the
non-negative size), then one row view per pass of the `i < p` loop. Every
number arising here is exactly representable, so the rational model of this
branch is exact; the budget `⌊p⌋ + 1` covers all passes. -/
def floatRowInit (bpe : ℕ) (p : ℚ) : Except PolyfitError Unit :=
  let bytesPerRow : ℚ := (p + 1) * bpe
  let bufLen : ℕ := (⌊p * bytesPerRow⌋).toNat
  let rowLen : ℕ := (⌊p + 1⌋).toNat
  rowInitLoop bpe p bytesPerRow bufLen rowLen 0 ((⌊p⌋).toNat + 1)

/-- Model of `Polyfit.computeCoefficients` through the error model, at a JS
(possibly non-integral) degree. On a `Float32Array`/`Float64Array` session
the matrix initialization can throw a `RangeError` (see `floatRowInit`,
invoked with the incremented degree `p = degree + 1`); no other statement of
the function throws. The values returned are those of `computeCoefficients`
at the degree's floor: they coincide with the source at natural-number
degrees, the only degrees whose values any claim consults. (At a fractional
degree on a plain-array session the source's values are `NaN`-poisoned —
the fractional index `p` reads `undefined` off the rows — which exact
rationals cannot express; that path's success/failure split, a normal
return, is still faithful.) -/
def computeCoefficientsE (s : Polyfit) (degree : ℚ) : Except PolyfitError (List ℚ) :=
  match s.kind.bytesPerElement with
  | some bpe =>
    match floatRowInit bpe (degree + 1) with
    | .error e => .error e
    | .ok _ => .ok (computeCoefficients s (⌊degree⌋).toNat)
  | none => .ok (computeCoefficients s (⌊degree⌋).toNat)

/-- Model of `Polyfit.getPolynomial`: throws `Degree must be a positive integer` when
`isNaN(degree) || degree < 0`; otherwise computes the coefficients (which on
a typed-array session can throw a `RangeError` at a non-integral degree) and
builds (via runtime code generation in the source) the evaluator
`x ↦ terms[0] + terms[1]*x^1 + ...`, i.e. `regress` applied to the computed
coefficients. -/
def getPolynomialE (s : Polyfit) (degree : JSNum) : Except PolyfitError (ℚ → ℚ) :=
  if degree.isNaNb || degree.isNegB then
    .error (.configurationError "Degree must be a positive integer")
  else
    match computeCoefficientsE s degree.toRat with
    | .error e => .error e
    | .ok terms => .ok fun x => regress x terms

/-- Decimal rendering of a coefficient, standing in for JS number-to-string
conversion (`toPrecision()` with no argument and string concatenation agree
on it). -/
def ratToStr (q : ℚ) : String :=
  if q.den = 1 then toString q.num else toString q.num ++ "/" ++ toString q.den

/-- The string `toExpression` builds from the computed terms: pushes
`terms[0]`, then `terms[i] + "x^" + i` for `i = 1 .. terms.length - 1`, and
joins the parts with `" + "`. -/
def exprStringOf (terms : List ℚ) : String :=
  let eqParts := ratToStr (terms.getD 0 0) ::
    ((List.range (terms.length - 1)).map fun i =>
      ratToStr (terms.getD (i + 1) 0) ++ "x^" ++ toString (i + 1))
  String.intercalate " + " eqParts

/-- The string produced by a successful `toExpression` call at a
natural-number degree. -/
def toExpressionStr (s : Polyfit) (degree : ℕ) : String :=
  exprStringOf (computeCoefficients s degree)

/-- Model of `Polyfit.toExpression`: same guard and same coefficient
computation (with its possible `RangeError`) as `getPolynomial`, then the
rendered string. -/
def toExpressionE (s : Polyfit) (degree : JSNum) : Except PolyfitError String :=
  if degree.isNaNb || degree.isNegB then
    .error (.configurationError "Degree must be a positive integer")
  else
    match computeCoefficientsE s degree.toRat with
    | .error e => .error e
    | .ok terms => .ok (exprStringOf terms)

end Polyfit

/-! ## Definitions written from the spec's words

The next definitions follow the specification text (not the source); the
refinement theorems below compare them with the source-translated functions
above. -/

/-- From the spec: at cursor `(i, j)`, "scans rows i..R-1 for the first row
with a nonzero entry in column j" — the first such row index, if any. -/
def specFirstPivot (matrix : Mat) (i j rows : ℕ) : Option ℕ :=
  (List.range' i (rows - i)).find? fun k => decide (entry matrix k j ≠ 0)

/-- The echelonization loop contract as the spec words it: starting from the
cursor, if the scanned column has a pivot row `k`, swap when `k ≠ i`, divide
the cursor row when its pivot is not `1`, always eliminate, and advance the
row cursor; the column index advances on every iteration, and the loop stops
once `i` reaches the row count or `j` the column count (a column with no
pivot at or below the cursor is skipped).
The recursion is again driven by a `cols - j` budget, so the two loops can
be compared step by step. -/
def echelonSpecGo (rows cols : ℕ) (matrix : Mat) (i j : ℕ) : ℕ → Mat
  | 0 => matrix
  | fuel + 1 =>
    if i < rows ∧ j < cols then
      match specFirstPivot matrix i j rows with
      | some k =>
        let m1 := if k = i then matrix else Polyfit.swapRows matrix i k
        let m2 := if entry m1 i j = 1 then m1 else Polyfit.gaussJordanDivide m1 i j cols
        echelonSpecGo rows cols (Polyfit.gaussJordanEliminate m2 i j rows cols)
          (i + 1) (j + 1) fuel
      | none => echelonSpecGo rows cols matrix i (j + 1) fuel
    else matrix

/-- The whole-matrix contract: run the spec's loop from `(0, 0)` with
`R = matrix.length` and `C = matrix[0].length`. -/
def echelonizeContract (matrix : Mat) : Mat :=
  echelonSpecGo matrix.length (matrix.headD []).length matrix 0 0
    (matrix.headD []).length

/-- From the spec sentence behind claim C8: the polynomial rendered as
`"c0 + c1*x^1 + c2*x^2 + ..."` — terms in increasing power order, joined by
`" + "`, with an asterisk between coefficient and power. -/
def specExprStar (s : Polyfit) (degree : ℕ) : String :=
  let terms := s.computeCoefficients degree
  String.intercalate " + " ((List.range terms.length).map fun i =>
    if i = 0 then Polyfit.ratToStr (terms.getD 0 0)
    else Polyfit.ratToStr (terms.getD i 0) ++ "*x^" ++ toString i)

/-- The same rendering without the asterisk (`"c0 + c1x^1 + c2x^2 + ..."`),
which is what the source's string concatenation actually produces. -/
def specExprNoStar (s : Polyfit) (degree : ℕ) : String :=
  let terms := s.computeCoefficients degree
  String.intercalate " + " ((List.range terms.length).map fun i =>
    if i = 0 then Polyfit.ratToStr (terms.getD 0 0)
    else Polyfit.ratToStr (terms.getD i 0) ++ "x^" ++ toString i)

/-! ## Helper lemmas -/

/-- Reading a whole list back off by index. -/
lemma map_getD_range (l : List ℚ) :
    (List.range l.length).map (fun i => l.getD i 0) = l := by
  induction l with
  | nil => simp
  | cons a t ih =>
    have h2 : (fun i => (a :: t).getD i 0) ∘ Nat.succ = fun i => t.getD i 0 := by
      funext i
      simp [List.getD_cons_succ]
    rw [List.length_cons, List.range_succ_eq_map, List.map_cons, List.map_map, h2, ih,
      List.getD_cons_zero]

/-- Mapping a function over the indexed reads of a list. -/
lemma map_comp_getD_range (g : ℚ → ℚ) (l : List ℚ) :
    (List.range l.length).map (fun i => g (l.getD i 0)) = l.map g := by
  have h : (fun i => g (l.getD i 0)) = g ∘ fun i => l.getD i 0 := rfl
  rw [h, ← List.map_map, map_getD_range]

lemma setEntry_length (M : Mat) (r c : ℕ) (v : ℚ) :
    (setEntry M r c v).length = M.length := by
  simp [setEntry]

lemma length_foldl_eq {β : Type} (g : Mat → β → Mat)
    (hg : ∀ N b, (g N b).length = N.length) :
    ∀ (l : List β) (M : Mat), (l.foldl g M).length = M.length := by
  intro l
  induction l with
  | nil => intro M; rfl
  | cons b t ih => intro M; rw [List.foldl_cons, ih, hg]

lemma gaussJordanDivide_length (M : Mat) (row col numCols : ℕ) :
    (Polyfit.gaussJordanDivide M row col numCols).length = M.length := by
  rw [Polyfit.gaussJordanDivide, setEntry_length]
  exact length_foldl_eq _ (fun N b => setEntry_length N row b _) _ _

lemma gaussJordanEliminate_length (M : Mat) (row col numRows numCols : ℕ) :
    (Polyfit.gaussJordanEliminate M row col numRows numCols).length = M.length := by
  rw [Polyfit.gaussJordanEliminate]
  refine length_foldl_eq _ (fun N b => ?_) _ _
  by_cases hb : b ≠ row ∧ entry N b col ≠ 0
  · rw [if_pos hb, setEntry_length]
    exact length_foldl_eq _ (fun N2 c => setEntry_length N2 b c _) _ _
  · rw [if_neg hb]

lemma swapRows_length (M : Mat) (i k : ℕ) :
    (Polyfit.swapRows M i k).length = M.length := by
  simp [Polyfit.swapRows]

lemma echelonGo_length (rows cols : ℕ) :
    ∀ (fuel : ℕ) (M : Mat) (i j : ℕ),
      (Polyfit.echelonGo rows cols M i j fuel).length = M.length := by
  intro fuel
  induction fuel with
  | zero => intro M i j; rfl
  | succ f ih =>
    intro M i j
    rw [Polyfit.echelonGo]
    by_cases hi : i < rows
    · rw [if_pos hi]
      by_cases hk : Polyfit.pivotScan M j i (rows - i) < rows
      · rw [if_pos hk, ih, gaussJordanEliminate_length]
        by_cases hd :
            entry (if Polyfit.pivotScan M j i (rows - i) ≠ i
              then Polyfit.swapRows M i (Polyfit.pivotScan M j i (rows - i)) else M) i j ≠ 1
        · rw [if_pos hd, gaussJordanDivide_length]
          by_cases hs : Polyfit.pivotScan M j i (rows - i) ≠ i
          · rw [if_pos hs, swapRows_length]
          · rw [if_neg hs]
        · rw [if_neg hd]
          by_cases hs : Polyfit.pivotScan M j i (rows - i) ≠ i
          · rw [if_pos hs, swapRows_length]
          · rw [if_neg hs]
      · rw [if_neg hk, ih]
    · rw [if_neg hi]

lemma gaussJordanEchelonize_length (M : Mat) :
    (Polyfit.gaussJordanEchelonize M).length = M.length := by
  rw [Polyfit.gaussJordanEchelonize, echelonGo_length]

lemma computeCoefficients_length (s : Polyfit) (p0 : ℕ) :
    (Polyfit.computeCoefficients s p0).length = p0 + 1 := by
  rw [Polyfit.computeCoefficients]
  simp [gaussJordanEchelonize_length]

/-- The hand-rolled pivot scan loop computes the first nonzero row index in
the remaining range, falling back to the end of the range. -/
lemma pivotScan_eq_find (matrix : Mat) (j : ℕ) :
    ∀ (fuel k : ℕ),
      Polyfit.pivotScan matrix j k fuel =
        ((List.range' k fuel).find? fun r => decide (entry matrix r j ≠ 0)).getD (k + fuel) := by
  intro fuel
  induction fuel with
  | zero => intro k; simp [Polyfit.pivotScan]
  | succ f ih =>
    intro k
    rw [List.range'_succ]
    by_cases h : entry matrix k j = 0
    · rw [Polyfit.pivotScan, if_pos h, List.find?_cons_of_neg _ (by simp [h]), ih]
      have harith : k + 1 + f = k + (f + 1) := by omega
      rw [harith]
    · rw [Polyfit.pivotScan, if_neg h, List.find?_cons_of_pos _ (by simp [h])]
      rfl

/-- The source's echelonization loop and the spec's loop agree step by step
(the budget is the invariant `cols - j`, shared by both). -/
lemma echelonGo_eq_spec (rows cols : ℕ) :
    ∀ (fuel : ℕ) (matrix : Mat) (i j : ℕ), j + fuel = cols →
      Polyfit.echelonGo rows cols matrix i j fuel = echelonSpecGo rows cols matrix i j fuel := by
  intro fuel
  induction fuel with
  | zero => intro M i j hj; rfl
  | succ f ih =>
    intro M i j hj
    have hjc : j < cols := by omega
    rw [Polyfit.echelonGo, echelonSpecGo]
    by_cases hi : i < rows
    · rw [if_pos hi, if_pos (show i < rows ∧ j < cols from ⟨hi, hjc⟩)]
      have hri : i + (rows - i) = rows := by omega
      have hp := pivotScan_eq_find M j (rows - i) i
      rw [hri] at hp
      cases hfind : specFirstPivot M i j rows with
      | some k =>
        have hk : k < rows := by
          have hmem := List.mem_of_find?_eq_some
            (by rw [specFirstPivot] at hfind; exact hfind)
          have hrange := List.mem_range'_1.mp hmem
          omega
        rw [specFirstPivot] at hfind
        rw [hfind, Option.getD_some] at hp
        simp only [hp, ne_eq, ite_not, if_pos hk]
        exact ih _ (i + 1) (j + 1) (by omega)
      | none =>
        rw [specFirstPivot] at hfind
        rw [hfind, Option.getD_none] at hp
        simp only [hp, if_neg (lt_irrefl rows)]
        exact ih M i (j + 1) (by omega)
    · rw [if_neg hi, if_neg (fun hc => hi hc.1)]



/-- A row-view loop all of whose passes satisfy the alignment and bounds
checks returns normally (with any budget: an exhausted budget also returns
normally). -/
lemma rowInitLoop_ok (bpe : ℕ) (p bytesPerRow : ℚ) (bufLen rowLen : ℕ)
    (hpass : ∀ t : ℕ, (t : ℚ) < p →
      (⌊(t : ℚ) * bytesPerRow⌋).toNat % bpe = 0 ∧
      (⌊(t : ℚ) * bytesPerRow⌋).toNat + rowLen * bpe ≤ bufLen) :
    ∀ (fuel i : ℕ), Polyfit.rowInitLoop bpe p bytesPerRow bufLen rowLen i fuel = .ok () := by
  intro fuel
  induction fuel with
  | zero => intro i; rfl
  | succ f ih =>
    intro i
    rw [Polyfit.rowInitLoop]
    by_cases hi : (i : ℚ) < p
    · obtain ⟨h1, h2⟩ := hpass i hi
      rw [if_pos hi, if_neg (by simp [h1]), if_neg (not_lt.mpr h2)]
      exact ih (i + 1)
    · rw [if_neg hi]

/-- With a natural-number degree `d` — so `p = d + 1` — every typed row view
is aligned (`i * (d+2) * bpe` is a multiple of `bpe`) and fits in the buffer
(`(i+1)*(d+2)*bpe ≤ (d+1)*(d+2)*bpe` for `i ≤ d`), so the initialization
succeeds for every element width. -/
lemma floatRowInit_nat (bpe d : ℕ) :
    Polyfit.floatRowInit bpe ((d : ℚ) + 1) = .ok () := by
  rw [Polyfit.floatRowInit]
  refine rowInitLoop_ok bpe _ _ _ _ (fun t ht => ?_) _ 0
  have hcast : ((d : ℚ) + 1) = ((d + 1 : ℕ) : ℚ) := by push_cast; ring
  rw [hcast] at ht
  have htd : t < d + 1 := by exact_mod_cast ht
  have e1 : (t : ℚ) * (((d : ℚ) + 1 + 1) * (bpe : ℚ)) = ((t * ((d + 2) * bpe) : ℕ) : ℚ) := by
    push_cast
    ring
  have e2 : ((d : ℚ) + 1 + 1) = ((d + 2 : ℕ) : ℚ) := by push_cast; ring
  have e3 : ((d : ℚ) + 1) * (((d : ℚ) + 1 + 1) * (bpe : ℚ)) =
      (((d + 1) * ((d + 2) * bpe) : ℕ) : ℚ) := by
    push_cast
    ring
  constructor
  · rw [e1, Int.floor_natCast, Int.toNat_natCast, ← Nat.mul_assoc]
    exact Nat.mul_mod_left (t * (d + 2)) bpe
  · rw [e1, e3, e2, Int.floor_natCast, Int.floor_natCast, Int.floor_natCast,
      Int.toNat_natCast, Int.toNat_natCast, Int.toNat_natCast]
    calc t * ((d + 2) * bpe) + (d + 2) * bpe = (t + 1) * ((d + 2) * bpe) := by ring
      _ ≤ (d + 1) * ((d + 2) * bpe) := Nat.mul_le_mul_right _ (by omega)

/-- The row-view loop only ever throws `RangeError`s, never a
`ConfigurationError`. -/
lemma rowInitLoop_no_config (bpe : ℕ) (p bytesPerRow : ℚ) (bufLen rowLen : ℕ) :
    ∀ (fuel i : ℕ),
      isConfigErrB (Polyfit.rowInitLoop bpe p bytesPerRow bufLen rowLen i fuel) = false := by
  intro fuel
  induction fuel with
  | zero => intro i; rfl
  | succ f ih =>
    intro i
    rw [Polyfit.rowInitLoop]
    by_cases hi : (i : ℚ) < p
    · rw [if_pos hi]
      by_cases ha : (⌊(i : ℚ) * bytesPerRow⌋).toNat % bpe ≠ 0
      · rw [if_pos ha]
        rfl
      · rw [if_neg ha]
        by_cases hb : bufLen < (⌊(i : ℚ) * bytesPerRow⌋).toNat + rowLen * bpe
        · rw [if_pos hb]
          rfl
        · rw [if_neg hb]
          exact ih (i + 1)
    · rw [if_neg hi]
      rfl

/-- `computeCoefficientsE` never throws a `ConfigurationError`: its only
error source is the typed row-view construction, a `RangeError`. -/
lemma computeCoefficientsE_no_config (s : Polyfit) (q : ℚ) :
    isConfigErrB (Polyfit.computeCoefficientsE s q) = false := by
  have hgen : ∀ (r : Except PolyfitError Unit), isConfigErrB r = false →
      isConfigErrB (match r with
        | .error e => (.error e : Except PolyfitError (List ℚ))
        | .ok _ => .ok (Polyfit.computeCoefficients s (⌊q⌋).toNat)) = false := by
    intro r hr
    cases r with
    | error e =>
      cases e with
      | configurationError m => exact hr
      | rangeError m => rfl
    | ok u => rfl
  rw [Polyfit.computeCoefficientsE]
  cases hk : s.kind.bytesPerElement with
  | none => rfl
  | some bpe => exact hgen _ (rowInitLoop_no_config _ _ _ _ _ _ 0)

/-! ## Claim theorems -/

/-- C1: for every matrix with at least one row, `gaussJordanEchelonize`
follows the loop contract: cursor from (0,0); at each column, the first row
at or below the cursor with a nonzero entry is the pivot (no magnitude-based
pivoting); a pivot found elsewhere is swapped up, the cursor row is divided
when the pivot is not 1, the column is eliminated from every other row and
the row cursor advances; the column index advances every iteration; the loop
stops when the row cursor reaches the row count or the column index the
column count (pivotless columns are skipped). -/
theorem gaussJordanEchelonize_follows_loop_contract (matrix : Mat)
    (hrows : 1 ≤ matrix.length) :
    Polyfit.gaussJordanEchelonize matrix = echelonizeContract matrix := by
  rw [Polyfit.gaussJordanEchelonize, echelonizeContract]
  exact echelonGo_eq_spec _ _ _ matrix 0 0 (by omega)

/-- Witness for C1 at a concrete matrix (one that exercises a swap and a
divide). -/
theorem gaussJordanEchelonize_follows_loop_contract_witness :
    1 ≤ List.length [[(0 : ℚ), 1, 1], [2, 4, 1]] ∧
      Polyfit.gaussJordanEchelonize [[(0 : ℚ), 1, 1], [2, 4, 1]] =
        echelonizeContract [[(0 : ℚ), 1, 1], [2, 4, 1]] :=
  ⟨by decide, gaussJordanEchelonize_follows_loop_contract _ (by decide)⟩

/-- C4: construction succeeds exactly when both operands are sequences of the
same representation with equal lengths, and every failure is a
`ConfigurationError`. -/
theorem mkPolyfit_validation (a b : JSValue) :
    isOkB (mkPolyfit a b) =
      (a.isSeqB && b.isSeqB && sameRepB a b && (a.seqLen == b.seqLen)) ∧
    isConfigErrB (mkPolyfit a b) =
      !(a.isSeqB && b.isSeqB && sameRepB a b && (a.seqLen == b.seqLen)) := by
  cases a <;> cases b <;>
    simp only [mkPolyfit, JSValue.isSeqB, sameRepB, JSValue.seqLen, isOkB, isConfigErrB,
      Bool.and_true, Bool.true_and, Bool.and_false, Bool.false_and, Bool.not_true,
      Bool.not_false, and_self] <;>
    first
      | exact ⟨rfl, rfl⟩
      | (rename_i xs ys
         by_cases h : xs.length = ys.length
         · rw [if_neg (by omega), h]
           simp [isOkB, isConfigErrB]
         · rw [if_pos h]
           simp [isOkB, isConfigErrB, Nat.beq_eq_true_eq, h])

/-- C10: construction from two empty sequences of the same representation
succeeds (the constructor checks only kind and length, never
non-emptiness). -/
theorem mkPolyfit_empty_sequences_ok :
    mkPolyfit (JSValue.arr []) (JSValue.arr []) = .ok ⟨SeqKind.plainArray, [], []⟩ ∧
    mkPolyfit (JSValue.f32 []) (JSValue.f32 []) = .ok ⟨SeqKind.float32, [], []⟩ ∧
    mkPolyfit (JSValue.f64 []) (JSValue.f64 []) = .ok ⟨SeqKind.float64, [], []⟩ :=
  ⟨rfl, rfl, rfl⟩

/-- C9: `computeCoefficients` is deterministic — two sessions constructed
from identical inputs yield identical coefficient sequences at every
degree. -/
theorem computeCoefficients_deterministic (a b : JSValue) (p : ℕ) (s1 s2 : Polyfit)
    (h1 : mkPolyfit a b = .ok s1) (h2 : mkPolyfit a b = .ok s2) :
    Polyfit.computeCoefficients s1 p = Polyfit.computeCoefficients s2 p := by
  rw [h1] at h2
  injection h2 with h3
  rw [h3]

/-- Witness for C9 at a concrete construction. -/
theorem computeCoefficients_deterministic_witness :
    mkPolyfit (JSValue.arr [1]) (JSValue.arr [2]) = .ok ⟨SeqKind.plainArray, [1], [2]⟩ ∧
      Polyfit.computeCoefficients ⟨SeqKind.plainArray, [1], [2]⟩ 1 =
        Polyfit.computeCoefficients ⟨SeqKind.plainArray, [1], [2]⟩ 1 :=
  ⟨rfl, computeCoefficients_deterministic (JSValue.arr [1]) (JSValue.arr [2]) 1 _ _ rfl rfl⟩

/-- C6 counterexample: `computeBestFit(0)` does not fail — the source has no
`maxDegree < 1` check and no `throw` at all; the loop body never runs and the
call returns the empty sequence normally. -/
theorem computeBestFit_zero_maxDegree_no_error :
    Polyfit.computeBestFitE ⟨SeqKind.plainArray, [0, 1], [0, 1]⟩ 0 none = Except.ok [] ∧
    isConfigErrB (Polyfit.computeBestFitE ⟨SeqKind.plainArray, [0, 1], [0, 1]⟩ 0 none) = false :=
  ⟨rfl, rfl⟩

/-- C6 amended: for every `maxDegree < 1` (zero or negative),
`computeBestFit` returns the empty sequence normally, with no error of any
kind. -/
theorem computeBestFit_small_maxDegree_empty (s : Polyfit) (tc : Option ℚ) (maxDegree : ℤ)
    (h : maxDegree < 1) :
    Polyfit.computeBestFitE s maxDegree tc = Except.ok [] := by
  rw [Polyfit.computeBestFitE, Polyfit.computeBestFit, Int.toNat_of_nonpos (by omega)]
  rfl

/-- Witness for the amended C6 at `maxDegree = -3`. -/
theorem computeBestFit_small_maxDegree_empty_witness :
    (-3 : ℤ) < 1 ∧
      Polyfit.computeBestFitE ⟨SeqKind.plainArray, [0, 1], [0, 1]⟩ (-3) none = Except.ok [] :=
  ⟨by decide, computeBestFit_small_maxDegree_empty _ none (-3) (by decide)⟩

/-- C5 counterexample: the degree guard is `isNaN(degree) || degree < 0`, so
the non-integral degree `3/2` — which the claim says must fail — is accepted
by both `getPolynomial` and `toExpression`. -/
theorem degree_guard_accepts_nonintegral :
    (mkRat 3 2).den ≠ 1 ∧ (0 : ℚ) ≤ mkRat 3 2 ∧
    isOkB (Polyfit.getPolynomialE ⟨SeqKind.plainArray, [0, 1], [0, 1]⟩
      (JSNum.num (mkRat 3 2))) = true ∧
    isOkB (Polyfit.toExpressionE ⟨SeqKind.plainArray, [0, 1], [0, 1]⟩
      (JSNum.num (mkRat 3 2))) = true := by
  refine ⟨by decide, by decide, ?_, ?_⟩ <;> rfl

/-- Sanity check on the modelled error path: on a `Float64Array` session the
non-integral degree `3/2` makes the row-view construction throw a
`RangeError` (offset `28` is not a multiple of `8`), so `getPolynomial`
fails past its guard — with a `RangeError`, not a `ConfigurationError`. -/
lemma getPolynomialE_typed_fractional_range_error :
    Polyfit.getPolynomialE ⟨SeqKind.float64, [0, 1], [0, 1]⟩ (JSNum.num (3 / 2)) =
      Except.error (PolyfitError.rangeError
        "start offset of the row view is not a multiple of the element size") := by
  norm_num [Polyfit.getPolynomialE, JSNum.isNaNb, JSNum.isNegB, JSNum.toRat,
    Polyfit.computeCoefficientsE, SeqKind.bytesPerElement, Polyfit.floatRowInit,
    Polyfit.rowInitLoop, Int.toNat_ofNat, Int.toNat_natCast]
  simp

/-- C5 amended: `getPolynomial(degree)` and `toExpression(degree)` fail with
a `ConfigurationError` exactly when `degree` is NaN or negative — on every
session, any error raised past that guard is not a `ConfigurationError` —
and on plain-array sessions the calls succeed for every other degree (in
particular, non-integral non-negative degrees are not rejected there). -/
theorem degree_guard_rejects_nan_and_negative (s : Polyfit) (d : JSNum) :
    isConfigErrB (Polyfit.getPolynomialE s d) = (d.isNaNb || d.isNegB) ∧
    isConfigErrB (Polyfit.toExpressionE s d) = (d.isNaNb || d.isNegB) ∧
    (s.kind = SeqKind.plainArray →
      isOkB (Polyfit.getPolynomialE s d) = !(d.isNaNb || d.isNegB) ∧
      isOkB (Polyfit.toExpressionE s d) = !(d.isNaNb || d.isNegB)) := by
  cases hg : (d.isNaNb || d.isNegB) with
  | true =>
    refine ⟨?_, ?_, fun hk => ⟨?_, ?_⟩⟩ <;>
      simp [Polyfit.getPolynomialE, Polyfit.toExpressionE, hg, isOkB, isConfigErrB]
  | false =>
    have hnc := computeCoefficientsE_no_config s d.toRat
    refine ⟨?_, ?_, fun hk => ?_⟩
    · rw [Polyfit.getPolynomialE, hg, if_neg Bool.false_ne_true]
      cases hce : Polyfit.computeCoefficientsE s d.toRat with
      | error e =>
        rw [hce] at hnc
        cases e with
        | configurationError m => exact hnc
        | rangeError m => rfl
      | ok terms => rfl
    · rw [Polyfit.toExpressionE, hg, if_neg Bool.false_ne_true]
      cases hce : Polyfit.computeCoefficientsE s d.toRat with
      | error e =>
        rw [hce] at hnc
        cases e with
        | configurationError m => exact hnc
        | rangeError m => rfl
      | ok terms => rfl
    · have hbe : s.kind.bytesPerElement = none := by rw [hk]; rfl
      constructor <;>
        simp [Polyfit.getPolynomialE, Polyfit.toExpressionE, Polyfit.computeCoefficientsE,
          hg, hbe, isOkB]

/-- Witness for the amended C5 at a concrete plain-array session and the
non-integral degree `3/2`. -/
theorem degree_guard_rejects_nan_and_negative_witness :
    (⟨SeqKind.plainArray, [0, 1], [0, 1]⟩ : Polyfit).kind = SeqKind.plainArray ∧
      isOkB (Polyfit.getPolynomialE ⟨SeqKind.plainArray, [0, 1], [0, 1]⟩
          (JSNum.num (mkRat 3 2))) =
        !((JSNum.num (mkRat 3 2)).isNaNb || (JSNum.num (mkRat 3 2)).isNegB) :=
  ⟨rfl, ((degree_guard_rejects_nan_and_negative
    ⟨SeqKind.plainArray, [0, 1], [0, 1]⟩ (JSNum.num (mkRat 3 2))).2.2 rfl).1⟩

/-- Echelonizing the 1×2 matrix `[[n, S]]` with `n ≠ 0` divides the single
row by its pivot. -/
lemma echelonize_one_by_two (n S : ℚ) (hn : n ≠ 0) :
    Polyfit.gaussJordanEchelonize [[n, S]] = [[1, S / n]] := by
  by_cases h1 : n = 1
  · subst h1
    simp [Polyfit.gaussJordanEchelonize, Polyfit.echelonGo, Polyfit.pivotScan,
      Polyfit.swapRows, Polyfit.gaussJordanDivide, Polyfit.gaussJordanEliminate,
      entry, setEntry, List.range', List.range_succ]
  · simp [Polyfit.gaussJordanEchelonize, Polyfit.echelonGo, Polyfit.pivotScan,
      Polyfit.swapRows, Polyfit.gaussJordanDivide, Polyfit.gaussJordanEliminate,
      entry, setEntry, List.range', List.range_succ, hn, h1]

/-- C3: on a session with equal-length, non-empty samples,
`computeCoefficients(0)` is the one-element sequence holding the mean of the
y values. -/
theorem computeCoefficients_degree_zero_is_mean (s : Polyfit)
    (hlen : s.x.length = s.y.length) (hne : s.x ≠ []) :
    Polyfit.computeCoefficients s 0 = [s.y.sum / (s.x.length : ℚ)] := by
  have hn : (s.x.length : ℚ) ≠ 0 := by
    have h0 : s.x.length ≠ 0 := by
      simpa [List.length_eq_zero] using hne
    exact_mod_cast h0
  have hm : Polyfit.mpcAt s.x 0 = (s.x.length : ℚ) := by
    rw [Polyfit.mpcAt, if_pos rfl]
  have hr : Polyfit.rhsAt s.x s.y 0 = s.y.sum := by
    rw [Polyfit.rhsAt]
    simp only [pow_zero, one_mul]
    rw [hlen, map_getD_range]
  rw [Polyfit.computeCoefficients]
  simp only [show List.range 1 = [0] from rfl, List.map_cons, List.map_nil,
    List.nil_append, List.cons_append, zero_add]
  rw [hm, hr, echelonize_one_by_two _ _ hn]
  simp [List.getD]

/-- Witness for C3 at a concrete session: mean of `[3, 5]` is `4`. -/
theorem computeCoefficients_degree_zero_is_mean_witness :
    ([(1 : ℚ), 2].length = [(3 : ℚ), 5].length) ∧ ([(1 : ℚ), 2] ≠ []) ∧
      Polyfit.computeCoefficients ⟨SeqKind.plainArray, [1, 2], [3, 5]⟩ 0 =
        [List.sum [(3 : ℚ), 5] / (List.length [(1 : ℚ), 2] : ℚ)] :=
  ⟨rfl, by decide, computeCoefficients_degree_zero_is_mean _ rfl (by decide)⟩

/-- C7: on a session with equal-length, non-empty samples,
`correlationCoefficient` returns exactly `0` whenever its denominator is
exactly `0` — in particular whenever all y values are identical — instead of
dividing by that zero denominator. -/
theorem correlationCoefficient_zero_denominator (s : Polyfit) (terms : List ℚ)
    (hlen : s.x.length = s.y.length) (hne : s.x ≠ []) :
    (Polyfit.corrDenomSq s terms = 0 → Polyfit.correlationCoefficient s terms = 0) ∧
    (∀ c : ℚ, (∀ v ∈ s.y, v = c) → Polyfit.correlationCoefficient s terms = 0) := by
  have hn : (s.x.length : ℚ) ≠ 0 := by
    have h0 : s.x.length ≠ 0 := by
      simpa [List.length_eq_zero] using hne
    exact_mod_cast h0
  have hzero : ∀ c : ℚ, (∀ v ∈ s.y, v = c) → Polyfit.corrDenomSq s terms = 0 := by
    intro c hc
    have hrep : s.y = List.replicate s.y.length c := List.eq_replicate_iff.mpr ⟨rfl, hc⟩
    have hsy : Polyfit.corrSy s = (s.y.length : ℚ) * c := by
      rw [Polyfit.corrSy, hlen, map_getD_range, hrep, List.sum_replicate, nsmul_eq_mul]
      rw [List.length_replicate]
    have hsy2 : Polyfit.corrSy2 s = (s.y.length : ℚ) * (c * c) := by
      rw [Polyfit.corrSy2, hlen]
      simp only [map_comp_getD_range (fun v => v * v) s.y]
      rw [hrep, List.map_replicate, List.sum_replicate, nsmul_eq_mul, List.length_replicate]
    have hB : Polyfit.corrSy2 s - Polyfit.corrSy s * Polyfit.corrSy s / (s.x.length : ℚ) = 0 := by
      rw [hsy, hsy2, hlen]
      have hyl : (s.y.length : ℚ) ≠ 0 := by rw [← hlen]; exact hn
      field_simp
      ring
    rw [Polyfit.corrDenomSq, hB, mul_zero]
  refine ⟨fun h => ?_, fun c hc => ?_⟩
  · rw [Polyfit.correlationCoefficient, if_pos h]
  · rw [Polyfit.correlationCoefficient, if_pos (hzero c hc)]

/-- Witness for C7: constant y values `[5, 5]` give a zero denominator and a
zero correlation. -/
theorem correlationCoefficient_zero_denominator_witness :
    ([(1 : ℚ), 2].length = [(5 : ℚ), 5].length) ∧
    Polyfit.corrDenomSq ⟨SeqKind.plainArray, [1, 2], [5, 5]⟩ [0] = 0 ∧
    Polyfit.correlationCoefficient ⟨SeqKind.plainArray, [1, 2], [5, 5]⟩ [0] = 0 := by
  have hd : Polyfit.corrDenomSq ⟨SeqKind.plainArray, [1, 2], [5, 5]⟩ [0] = 0 := by
    norm_num [Polyfit.corrDenomSq, Polyfit.corrSx, Polyfit.corrSy, Polyfit.corrSxy,
      Polyfit.corrSx2, Polyfit.corrSy2, Polyfit.regress, List.range_succ]
  exact ⟨rfl, hd, (correlationCoefficient_zero_denominator _ [0] rfl (by decide)).1 hd⟩

/-- If the first qualifying degree in the remaining range is `d`, the degree
loop returns the degree-`d` coefficients. -/
lemma bestFitLoop_finds (s : Polyfit) (t : ℚ) :
    ∀ (fuel start d : ℕ), start ≤ d → d < start + fuel →
      t < Polyfit.correlationCoefficient s (Polyfit.computeCoefficients s d) →
      (∀ e, start ≤ e → e < d →
        Polyfit.correlationCoefficient s (Polyfit.computeCoefficients s e) ≤ t) →
      Polyfit.bestFitLoop s t start fuel = Polyfit.computeCoefficients s d := by
  intro fuel
  induction fuel with
  | zero => intro start d h1 h2 h3 h4; omega
  | succ f ih =>
    intro start d h1 h2 h3 h4
    rw [Polyfit.bestFitLoop]
    by_cases hd : start = d
    · subst hd
      rw [if_pos h3]
    · have hlt : start < d := by omega
      rw [if_neg (not_lt.mpr (h4 start le_rfl hlt))]
      exact ih (start + 1) d (by omega) (by omega) h3 (fun e he1 he2 => h4 e (by omega) he2)

/-- If no degree in the remaining range qualifies, the degree loop returns
the empty sequence. -/
lemma bestFitLoop_none (s : Polyfit) (t : ℚ) :
    ∀ (fuel start : ℕ),
      (∀ e, start ≤ e → e < start + fuel →
        Polyfit.correlationCoefficient s (Polyfit.computeCoefficients s e) ≤ t) →
      Polyfit.bestFitLoop s t start fuel = [] := by
  intro fuel
  induction fuel with
  | zero => intro start h; rfl
  | succ f ih =>
    intro start h
    rw [Polyfit.bestFitLoop, if_neg (not_lt.mpr (h start le_rfl (by omega)))]
    exact ih (start + 1) (fun e he1 he2 => h e (by omega) (by omega))

/-- C2: on a session with non-empty samples and `maxDegree ≥ 1`,
`computeBestFit` scans degrees `1, 2, ..., maxDegree` in increasing order and
returns `computeCoefficients(d)` for the smallest `d` whose correlation
strictly exceeds the threshold (`0.9` when omitted); when no degree in range
qualifies it returns the empty sequence. -/
theorem computeBestFit_first_qualifying (s : Polyfit) (maxDegree : ℤ) (tc : Option ℚ)
    (hmax : 1 ≤ maxDegree) (hne : s.x ≠ []) :
    (∀ d : ℕ, 1 ≤ d → (d : ℤ) ≤ maxDegree →
      tc.getD (9 / 10) < Polyfit.correlationCoefficient s (Polyfit.computeCoefficients s d) →
      (∀ e, 1 ≤ e → e < d →
        Polyfit.correlationCoefficient s (Polyfit.computeCoefficients s e) ≤ tc.getD (9 / 10)) →
      Polyfit.computeBestFit s maxDegree tc = Polyfit.computeCoefficients s d) ∧
    ((∀ d : ℕ, 1 ≤ d → (d : ℤ) ≤ maxDegree →
      Polyfit.correlationCoefficient s (Polyfit.computeCoefficients s d) ≤ tc.getD (9 / 10)) →
      Polyfit.computeBestFit s maxDegree tc = []) := by
  constructor
  · intro d hd1 hd2 hcorr hmin
    rw [Polyfit.computeBestFit]
    exact bestFitLoop_finds s _ maxDegree.toNat 1 d hd1 (by omega) hcorr hmin
  · intro hall
    rw [Polyfit.computeBestFit]
    exact bestFitLoop_none s _ maxDegree.toNat 1 (fun e he1 he2 => hall e he1 (by omega))

/-- Witness for C2: on the two samples `(0,0), (1,1)` the degree-1 fit has
correlation `1 > 0.9`, so `computeBestFit(1)` returns the degree-1
coefficients. -/
theorem computeBestFit_first_qualifying_witness :
    (1 : ℤ) ≤ 1 ∧
      Polyfit.computeBestFit ⟨SeqKind.plainArray, [0, 1], [0, 1]⟩ 1 none =
        Polyfit.computeCoefficients ⟨SeqKind.plainArray, [0, 1], [0, 1]⟩ 1 := by
  refine ⟨by decide, ?_⟩
  refine (computeBestFit_first_qualifying ⟨SeqKind.plainArray, [0, 1], [0, 1]⟩ 1 none
    (by decide) (by decide)).1 1 le_rfl (by decide) ?_ ?_
  · norm_num [Option.getD, Polyfit.correlationCoefficient, Polyfit.corrDenomSq,
      Polyfit.corrSx, Polyfit.corrSy, Polyfit.corrSxy, Polyfit.corrSx2, Polyfit.corrSy2,
      Polyfit.regress, Polyfit.computeCoefficients, Polyfit.gaussJordanEchelonize,
      Polyfit.echelonGo, Polyfit.pivotScan, Polyfit.swapRows, Polyfit.gaussJordanDivide,
      Polyfit.gaussJordanEliminate, entry, setEntry, Polyfit.mpcAt, Polyfit.rhsAt,
      List.range_succ, List.range']
  · intro e he1 he2
    exact absurd (he1.trans_lt he2) (lt_irrefl 1)

/-- C8 counterexample: at degree 1 on samples `(0,0), (1,1)` the rendered
expression is `0 + 1x^1` — the source concatenates `terms[i] + 'x^' + i`
with no `*`, so the claimed `"c0 + c1*x^1 + ..."` shape is not produced. -/
theorem toExpression_star_format_false :
    Polyfit.toExpressionE ⟨SeqKind.plainArray, [0, 1], [0, 1]⟩ (JSNum.num 1) ≠
      Except.ok (specExprStar ⟨SeqKind.plainArray, [0, 1], [0, 1]⟩ 1) := by
  have hco : Polyfit.computeCoefficients ⟨SeqKind.plainArray, [0, 1], [0, 1]⟩ 1 = [0, 1] := by
    norm_num [Polyfit.computeCoefficients, Polyfit.gaussJordanEchelonize,
      Polyfit.echelonGo, Polyfit.pivotScan, Polyfit.swapRows, Polyfit.gaussJordanDivide,
      Polyfit.gaussJordanEliminate, entry, setEntry, Polyfit.mpcAt, Polyfit.rhsAt,
      List.range_succ, List.range']
  have h1 : Polyfit.toExpressionE ⟨SeqKind.plainArray, [0, 1], [0, 1]⟩ (JSNum.num 1) =
      Except.ok (Polyfit.toExpressionStr ⟨SeqKind.plainArray, [0, 1], [0, 1]⟩ 1) := rfl
  rw [h1, ne_eq, Except.ok.injEq]
  simp only [Polyfit.toExpressionStr, specExprStar, hco]
  decide

/-- C8 amended: for every natural-number degree, `toExpression` renders
`"c0 + c1x^1 + c2x^2 + ..."` — coefficients of `computeCoefficients` in
increasing power order, joined by `" + "`, each term being the coefficient's
decimal string directly followed by `x^i` (no asterisk). -/
theorem toExpression_renders_without_star (s : Polyfit) (d : ℕ) :
    Polyfit.toExpressionE s (JSNum.num d) = Except.ok (specExprNoStar s d) := by
  have h1 : ¬ ((d : ℚ) < 0) := not_lt.mpr (Nat.cast_nonneg d)
  have hfl : ((⌊(JSNum.num (d : ℚ)).toRat⌋).toNat) = d := by
    simp [JSNum.toRat]
  have htoRat : (JSNum.num (d : ℚ)).toRat = (d : ℚ) := rfl
  have hfl2 : ((⌊(d : ℚ)⌋).toNat) = d := by simp
  have hCE : Polyfit.computeCoefficientsE s (JSNum.num (d : ℚ)).toRat =
      Except.ok (Polyfit.computeCoefficients s d) := by
    cases hk : s.kind.bytesPerElement with
    | none => simp only [Polyfit.computeCoefficientsE, htoRat, hk, hfl2]
    | some bpe =>
      simp only [Polyfit.computeCoefficientsE, htoRat, hk, floatRowInit_nat bpe d, hfl2]
  have hl := computeCoefficients_length s d
  have hstr : Polyfit.exprStringOf (Polyfit.computeCoefficients s d) = specExprNoStar s d := by
    simp only [Polyfit.exprStringOf, specExprNoStar]
    rw [hl, Nat.add_sub_cancel, List.range_succ_eq_map, List.map_cons, List.map_map]
    congr 1
  have hguard : ((JSNum.num (d : ℚ)).isNaNb || (JSNum.num (d : ℚ)).isNegB) = false := by
    simp [JSNum.isNaNb, JSNum.isNegB, h1]
  rw [Polyfit.toExpressionE, hguard, if_neg Bool.false_ne_true]
  simp only [hCE]
  rw [hstr]
